import Mathlib

/-!
Shallow embedding of `cpu.py`, an LS-8 style 8-bit machine simulator.

Conventions of the embedding:
* Python integers are `Int` (Python ints are unbounded; the source never masks).
* Python `%` on a positive modulus is Lean's `Int.emod` (the `%` instance).
* Python `>>` is floor division by a power of two (`Int.fdiv`); `<<` is
  multiplication by a power of two.
* Python lists are `List Int`; indexing follows Python semantics: an index
  `i` with `0 ≤ i < len` reads position `i`, an index with `-len ≤ i < 0`
  reads position `len + i`, anything else raises `IndexError`.
* Fallible operations return `Except PyExc`, where `PyExc` records the
  Python exception (or `sys.exit`) that ends the interpreter; an uncaught
  Python exception terminates the process with exit status 1.
-/

namespace LS8

/-- A Python exception (or `SystemExit`) escaping the simulator. -/
inductive PyExc where
  | indexError : PyExc
  | keyError : Int → PyExc
  | valueError : String → PyExc
  | exception : String → PyExc
  | systemExit : Int → PyExc
deriving DecidableEq, Repr

/-- Process exit status produced by each way out: an uncaught Python
exception exits with status 1, `sys.exit(n)` with `n`. -/
def exitCode : PyExc → Int
  | .indexError => 1
  | .keyError _ => 1
  | .valueError _ => 1
  | .exception _ => 1
  | .systemExit n => n

/-- The diagnostic text associated with the exception, as Python prints it. -/
def excMessage : PyExc → String
  | .indexError => "IndexError: list index out of range"
  | .keyError k => "KeyError: " ++ toString k
  | .valueError m => m
  | .exception m => m
  | .systemExit _ => ""

/-- Python `x << n` on integers. -/
def pyShl (x : Int) (n : Nat) : Int := x * 2 ^ n

/-- Python `x >> n` on integers (arithmetic shift = floor division). -/
def pyShr (x : Int) (n : Nat) : Int := Int.fdiv x (2 ^ n)

/-- Resolve a Python list index against a list of length `n`:
`0 ≤ i < n` resolves to `i`, `-n ≤ i < 0` resolves to `n + i`,
otherwise the access raises `IndexError` (`none`). -/
def pyIdx (n : Nat) (i : Int) : Option Nat :=
  if 0 ≤ i ∧ i < (n : Int) then some i.toNat
  else if -(n : Int) ≤ i ∧ i < 0 then some (i + n).toNat
  else none

/-- Python `l[i]` read. -/
def pyGet (l : List Int) (i : Int) : Option Int :=
  match pyIdx l.length i with
  | some j => l.get? j
  | none => none

/-- Python `l[i] = v` write. -/
def pySet (l : List Int) (i : Int) (v : Int) : Option (List Int) :=
  match pyIdx l.length i with
  | some j => some (l.set j v)
  | none => none

/-- Python list read, raising `IndexError` when out of range. -/
def getE (l : List Int) (i : Int) : Except PyExc Int :=
  match pyGet l i with
  | some v => .ok v
  | none => .error .indexError

/-- Python list write, raising `IndexError` when out of range. -/
def setE (l : List Int) (i : Int) (v : Int) : Except PyExc (List Int) :=
  match pySet l i v with
  | some l2 => .ok l2
  | none => .error .indexError

/-- The machine state of class `CPU`: 256 cells of ram, 8 registers
(register 7 is the stack pointer), the program counter `PC`, the flags
register `FL`, and the latched operand bytes set by each fetch.
(`MAR`/`MDR` are write-only scratch in the source and are omitted.) -/
structure CPUState where
  ram : List Int
  reg : List Int
  PC : Int
  FL : Int
  operand_a : Int
  operand_b : Int
deriving DecidableEq, Repr

/-- `CPU.__init__`: zero-filled ram, registers zero except `reg[7] = 0xF4`,
`PC = 0`, `FL = 0` (the operand latches start as `None`; they are written
before first use, we start them at 0). -/
def initState : CPUState :=
  { ram := List.replicate 256 0
    reg := [0, 0, 0, 0, 0, 0, 0, 0xF4]
    PC := 0
    FL := 0
    operand_a := 0
    operand_b := 0 }

/-- Opcode constant `math_op["ADD"]`. -/
def ADD : Int := 0b10100000
/-- Opcode constant `math_op["SUB"]`. -/
def SUB : Int := 0b10100001
/-- Opcode constant `math_op["MUL"]`. -/
def MUL : Int := 0b10100010
/-- Opcode constant `math_op["CMP"]`. -/
def CMP : Int := 0b10100111

/-- The `binary_op` dictionary: opcode byte to instruction name;
`none` models a `KeyError` on lookup. -/
def binary_op (i : Int) : Option String :=
  if i = 0b00000001 then some "HLT"
  else if i = 0b10000010 then some "LDI"
  else if i = 0b01000111 then some "PRN"
  else if i = 0b01000101 then some "PUSH"
  else if i = 0b01000110 then some "POP"
  else if i = 0b01010000 then some "CALL"
  else if i = 0b00010001 then some "RET"
  else if i = 0b01010100 then some "JMP"
  else if i = 0b01010101 then some "JEQ"
  else if i = 0b01010110 then some "JNE"
  else none

/-- `CPU.call`: decrement SP, store `PC + 2` at the decremented SP,
then set PC to the value held in the operand register (read after the
decrement, as the source does). -/
def call (s : CPUState) : Except PyExc CPUState :=
  match getE s.reg 7 with
  | .error e => .error e
  | .ok sp =>
    match setE s.reg 7 (sp - 1) with
    | .error e => .error e
    | .ok reg1 =>
      match setE s.ram (sp - 1) (s.PC + 2) with
      | .error e => .error e
      | .ok ram1 =>
        match getE reg1 s.operand_a with
        | .error e => .error e
        | .ok target => .ok { s with reg := reg1, ram := ram1, PC := target }

/-- `CPU.ret`: `PC ← ram[reg[7]]`, then increment SP. -/
def ret (s : CPUState) : Except PyExc CPUState :=
  match getE s.reg 7 with
  | .error e => .error e
  | .ok sp =>
    match getE s.ram sp with
    | .error e => .error e
    | .ok v =>
      match setE s.reg 7 (sp + 1) with
      | .error e => .error e
      | .ok reg1 => .ok { s with PC := v, reg := reg1 }

/-- `CPU.jmp`: `PC ← reg[operand_a]` (the "JUMPING" print is ignored). -/
def jmp (s : CPUState) : Except PyExc CPUState :=
  match getE s.reg s.operand_a with
  | .error e => .error e
  | .ok address => .ok { s with PC := address }

/-- `CPU.jeq`: read `reg[operand_a]`; if `FL & 1 == 1` jump there,
else `PC ← PC + 2`. (`FL & 1` is `FL % 2` for Python integers.) -/
def jeq (s : CPUState) : Except PyExc CPUState :=
  match getE s.reg s.operand_a with
  | .error e => .error e
  | .ok address =>
    if s.FL % 2 = 1 then .ok { s with PC := address }
    else .ok { s with PC := s.PC + 2 }

/-- `CPU.jne`: read `reg[operand_a]`; if `FL & 1 == 0` jump there,
else `PC ← PC + 2`. -/
def jne (s : CPUState) : Except PyExc CPUState :=
  match getE s.reg s.operand_a with
  | .error e => .error e
  | .ok address =>
    if s.FL % 2 = 0 then .ok { s with PC := address }
    else .ok { s with PC := s.PC + 2 }

/-- `CPU.halt`: `sys.exit()` raises `SystemExit` with status 0. -/
def halt (_s : CPUState) : Except PyExc CPUState :=
  .error (.systemExit 0)

/-- `CPU.ldi`: `reg[operand_a] ← operand_b`. -/
def ldi (s : CPUState) : Except PyExc CPUState :=
  match setE s.reg s.operand_a s.operand_b with
  | .error e => .error e
  | .ok reg1 => .ok { s with reg := reg1 }

/-- `CPU.prn`: read `reg[operand_a]` and print it; no state change. -/
def prn (s : CPUState) : Except PyExc CPUState :=
  match getE s.reg s.operand_a with
  | .error e => .error e
  | .ok _ => .ok s

/-- `CPU.push`: decrement SP, read the operand register (after the
decrement, as the source does), store it at the decremented SP. -/
def push (s : CPUState) : Except PyExc CPUState :=
  match getE s.reg 7 with
  | .error e => .error e
  | .ok sp =>
    match setE s.reg 7 (sp - 1) with
    | .error e => .error e
    | .ok reg1 =>
      match getE reg1 s.operand_a with
      | .error e => .error e
      | .ok value =>
        match setE s.ram (sp - 1) value with
        | .error e => .error e
        | .ok ram1 => .ok { s with reg := reg1, ram := ram1 }

/-- `CPU.pop`: read `ram[reg[7]]` into the operand register, then
increment SP (re-reading `reg[7]` after the operand write, as the
source's `self.reg[SP] += 1` does). -/
def pop (s : CPUState) : Except PyExc CPUState :=
  match getE s.reg 7 with
  | .error e => .error e
  | .ok sp =>
    match getE s.ram sp with
    | .error e => .error e
    | .ok value =>
      match setE s.reg s.operand_a value with
      | .error e => .error e
      | .ok reg1 =>
        match getE reg1 7 with
        | .error e => .error e
        | .ok sp2 =>
          match setE reg1 7 (sp2 + 1) with
          | .error e => .error e
          | .ok reg2 => .ok { s with reg := reg2 }

/-- `CPU.ALU`: dispatch on the raw opcode. ADD/SUB/MUL operate on the
argument register indices with plain integer arithmetic (the source never
masks to 8 bits); CMP ignores its arguments and compares
`reg[operand_a]` with `reg[operand_b]`, assigning `FL` through three
consecutive `if` statements; any other opcode raises
`Exception("Unsupported ALU operation")`. -/
def ALU (s : CPUState) (op reg_a reg_b : Int) : Except PyExc CPUState :=
  if op = ADD then
    match getE s.reg reg_a with
    | .error e => .error e
    | .ok va =>
      match getE s.reg reg_b with
      | .error e => .error e
      | .ok vb =>
        match setE s.reg reg_a (va + vb) with
        | .error e => .error e
        | .ok reg1 => .ok { s with reg := reg1 }
  else if op = SUB then
    match getE s.reg reg_a with
    | .error e => .error e
    | .ok va =>
      match getE s.reg reg_b with
      | .error e => .error e
      | .ok vb =>
        match setE s.reg reg_a (va - vb) with
        | .error e => .error e
        | .ok reg1 => .ok { s with reg := reg1 }
  else if op = MUL then
    match getE s.reg reg_a with
    | .error e => .error e
    | .ok va =>
      match getE s.reg reg_b with
      | .error e => .error e
      | .ok vb =>
        match setE s.reg reg_a (va * vb) with
        | .error e => .error e
        | .ok reg1 => .ok { s with reg := reg1 }
  else if op = CMP then
    match getE s.reg s.operand_a with
    | .error e => .error e
    | .ok valueA =>
      match getE s.reg s.operand_b with
      | .error e => .error e
      | .ok valueB =>
        let fl1 := if valueA = valueB then 0b00000001 else s.FL
        let fl2 := if valueA < valueB then 0b00000100 else fl1
        let fl3 := if valueA > valueB then 0b00000010 else fl2
        .ok { s with FL := fl3 }
  else .error (.exception "Unsupported ALU operation")

/-- `CPU.move_PC`: advance `PC` by `(ireg >> 6) + 1` unless
`(ireg << 3) % 255 >> 7` equals 1 (the source's "instruction sets PC
itself" test, with its literal `% 255`). -/
def move_PC (s : CPUState) (ireg : Int) : CPUState :=
  if pyShr (pyShl ireg 3 % 255) 7 ≠ 1 then
    { s with PC := s.PC + (pyShr ireg 6 + 1) }
  else s

/-- `self.instructions[name]()`: the branch table built in `__init__`. -/
def runInstruction (s : CPUState) (name : String) : Except PyExc CPUState :=
  if name = "HLT" then halt s
  else if name = "LDI" then ldi s
  else if name = "PRN" then prn s
  else if name = "PUSH" then push s
  else if name = "POP" then pop s
  else if name = "CALL" then call s
  else if name = "RET" then ret s
  else if name = "JMP" then jmp s
  else if name = "JEQ" then jeq s
  else if name = "JNE" then jne s
  else .error (.keyError 0)

/-- One iteration of the `while True` loop in `CPU.run`: fetch the opcode
and both operand bytes, classify by `(ireg << 2) % 255 >> 7` (1 = ALU,
0 = branch-table dispatch, anything else = the "Space dog" diagnostic and
`sys.exit(1)`), execute, then `move_PC`. -/
def step (s : CPUState) : Except PyExc CPUState :=
  match getE s.ram s.PC with
  | .error e => .error e
  | .ok ireg =>
    match getE s.ram (s.PC + 1) with
    | .error e => .error e
    | .ok opa =>
      match getE s.ram (s.PC + 2) with
      | .error e => .error e
      | .ok opb =>
        let s1 : CPUState := { s with operand_a := opa, operand_b := opb }
        if pyShr (pyShl ireg 2 % 255) 7 = 1 then
          match ALU s1 ireg opa opb with
          | .error e => .error e
          | .ok s2 => .ok (move_PC s2 ireg)
        else if pyShr (pyShl ireg 2 % 255) 7 = 0 then
          match binary_op ireg with
          | none => .error (.keyError ireg)
          | some name =>
            match runInstruction s1 name with
            | .error e => .error e
            | .ok s2 => .ok (move_PC s2 ireg)
        else .error (.systemExit 1)

/-! ## The loader (`CPU.load`) and the top-level entry point -/

/-- Digit scanner for Python `int(value, 2)`: consumes binary digits with
single underscores allowed between digits (Python's numeral grammar);
`uok` records whether an underscore may appear next, `seen` whether at
least one digit has been consumed. -/
def scanBin : List Char → Nat → Bool → Bool → Option Nat
  | [], acc, uok, seen => if uok && seen then some acc else none
  | c :: rest, acc, uok, seen =>
    if c = '0' then scanBin rest (2 * acc) true true
    else if c = '1' then scanBin rest (2 * acc + 1) true true
    else if c = '_' then (if uok then scanBin rest acc false seen else none)
    else none

/-- Model of Python's `int(value, 2)` on an already-stripped string:
optional sign, optional `0b`/`0B` prefix, then binary digits with
single internal underscores; `none` models the `ValueError` Python
raises on anything else. -/
def int2 (value : String) : Option Int :=
  let cs := value.toList
  let signed : Int × List Char :=
    match cs with
    | '-' :: rest => (-1, rest)
    | '+' :: rest => (1, rest)
    | _ => (1, cs)
  let scanned : Option Nat :=
    match signed.2 with
    | '0' :: 'b' :: rest => scanBin rest 0 true false
    | '0' :: 'B' :: rest => scanBin rest 0 true false
    | other => scanBin other 0 false false
  match scanned with
  | some n => some (signed.1 * n)
  | none => none

/-- ASCII whitespace removed by Python's `str.strip()`. -/
def isSpace (c : Char) : Bool :=
  c = ' ' ∨ c = '\t' ∨ c = '\n' ∨ c = '\r' ∨ c = '\x0b' ∨ c = '\x0c'

/-- Drop leading whitespace characters. -/
def dropSpaces : List Char → List Char
  | [] => []
  | c :: r => if isSpace c then dropSpaces r else c :: r

/-- Python `str.strip()` on the character list. -/
def pyStrip (cs : List Char) : List Char :=
  (dropSpaces (dropSpaces cs).reverse).reverse

/-- `split("#")[0]`: the characters before the first `#`. -/
def beforeHash : List Char → List Char
  | [] => []
  | c :: r => if c = '#' then [] else c :: beforeHash r

/-- One line of the image file, processed as in `CPU.load`: strip, split
on `#`, keep the part before the comment, strip again; `none` means the
line is blank after comment stripping and is skipped. -/
def parseLine (line : String) : Option String :=
  let value := pyStrip (beforeHash (pyStrip line.toList))
  if value = [] then none else some (String.mk value)

/-- Outcome of loading: a populated ram image, or a fatal error carrying
the process exit status and the diagnostic. -/
inductive LoadResult where
  | ok : List Int → LoadResult
  | err : Int → String → LoadResult
deriving DecidableEq, Repr

/-- The line-processing loop of `CPU.load`: parse each retained line with
`int(value, 2)` and store it at the next address. A malformed line's
`ValueError` is not caught by the source (its `except` clause only
handles `FileNotFoundError`), so it escapes as an uncaught exception:
exit status 1. -/
def loadLines : List String → List Int → Nat → LoadResult
  | [], ram, _ => .ok ram
  | line :: rest, ram, address =>
    match parseLine line with
    | none => loadLines rest ram address
    | some value =>
      match int2 value with
      | none =>
        .err 1 ("ValueError: invalid literal for int() with base 2: " ++ value)
      | some num =>
        match pySet ram (address : Int) num with
        | some ram2 => loadLines rest ram2 (address + 1)
        | none => .err 1 "IndexError: list assignment index out of range"

/-- `CPU.load`: `argv` is the full `sys.argv`; `file` is the opened
file's lines, `none` when the path does not exist (`FileNotFoundError`).
Wrong argument count prints a usage error and exits 1; a missing file
prints an error and exits 2. -/
def load (argv : List String) (file : Option (List String)) : LoadResult :=
  if argv.length ≠ 2 then .err 1 "ERROR: Must have file name"
  else
    match file with
    | none => .err 2 "File not found"
    | some lines => loadLines lines (List.replicate 256 0) 0

/-- Modelled from the spec: the top-level entry point (absent from
`src/`; the spec's data flow is "Loader → Memory (one-time) → Execution
Engine") calls `load` first and only on success starts the
fetch-decode-execute loop; `true` iff execution begins. -/
def mainStarts (argv : List String) (file : Option (List String)) : Bool :=
  match load argv file with
  | .ok _ => true
  | .err _ _ => false

/-! ## Basic lemmas about the Python list model -/

theorem pyIdx_some_lt {n : Nat} {i : Int} {j : Nat}
    (h : pyIdx n i = some j) : j < n := by
  unfold pyIdx at h
  by_cases h1 : 0 ≤ i ∧ i < (n : Int)
  · simp only [if_pos h1] at h
    injection h with h2
    omega
  · simp only [if_neg h1] at h
    by_cases h2 : -(n : Int) ≤ i ∧ i < 0
    · simp only [if_pos h2] at h
      injection h with h3
      omega
    · simp [if_neg h2] at h

theorem pyIdx_of_nonneg_lt {n : Nat} {i : Int} (h0 : 0 ≤ i)
    (h1 : i < (n : Int)) : pyIdx n i = some i.toNat := by
  unfold pyIdx
  rw [if_pos ⟨h0, h1⟩]

theorem pySet_some_iff {l : List Int} {i v : Int} {l2 : List Int} :
    pySet l i v = some l2
      ↔ ∃ j, pyIdx l.length i = some j ∧ l2 = l.set j v := by
  unfold pySet
  cases h : pyIdx l.length i with
  | none => simp
  | some j =>
    simp only [Option.some_inj]
    constructor
    · intro h2
      exact ⟨j, rfl, h2.symm⟩
    · rintro ⟨j2, hj2, rfl⟩
      rw [hj2]

theorem pyGet_some_iff {l : List Int} {i v : Int} :
    pyGet l i = some v
      ↔ ∃ j, pyIdx l.length i = some j ∧ l.get? j = some v := by
  unfold pyGet
  cases h : pyIdx l.length i with
  | none => simp
  | some j =>
    constructor
    · intro h2
      exact ⟨j, rfl, h2⟩
    · rintro ⟨j2, hj2, hv⟩
      injection hj2 with hj3
      rw [hj3]
      exact hv

theorem length_pySet {l : List Int} {i v : Int} {l2 : List Int}
    (h : pySet l i v = some l2) : l2.length = l.length := by
  rcases pySet_some_iff.mp h with ⟨j, _, rfl⟩
  exact List.length_set l j v

theorem get?_set_self (l : List Int) (j : Nat) (v : Int)
    (hj : j < l.length) : (l.set j v).get? j = some v := by
  induction l generalizing j with
  | nil => simp at hj
  | cons a t ih =>
    cases j with
    | zero => rfl
    | succ k =>
      simp only [List.set, List.get?]
      exact ih k (by simpa using hj)

theorem get?_set_other (l : List Int) (i j : Nat) (v : Int)
    (hij : i ≠ j) : (l.set i v).get? j = l.get? j := by
  induction l generalizing i j with
  | nil => rfl
  | cons a t ih =>
    cases i with
    | zero =>
      cases j with
      | zero => exact absurd rfl hij
      | succ k => rfl
    | succ m =>
      cases j with
      | zero => rfl
      | succ k =>
        simp only [List.set, List.get?]
        exact ih m k (by omega)

theorem pyGet_pySet_self {l : List Int} {i v : Int} {l2 : List Int}
    (h : pySet l i v = some l2) : pyGet l2 i = some v := by
  rcases pySet_some_iff.mp h with ⟨j, hj, rfl⟩
  apply pyGet_some_iff.mpr
  refine ⟨j, ?_, ?_⟩
  · rw [List.length_set]
    exact hj
  · exact get?_set_self l j v (pyIdx_some_lt hj)

/-! ## Claim theorems -/

/-- The fourteen opcode bytes the machine can execute: the keys of
`binary_op` followed by the values of `math_op`. -/
def opcodes : List Int :=
  [0b00000001, 0b10000010, 0b01000111, 0b01000101, 0b01000110, 0b01010000,
   0b00010001, 0b01010100, 0b01010101, 0b01010110,
   0b10100000, 0b10100001, 0b10100010, 0b10100111]

theorem move_PC_adv (s : CPUState) (ireg k : Int)
    (h : pyShr (pyShl ireg 3 % 255) 7 ≠ 1) (hk : pyShr ireg 6 + 1 = k) :
    move_PC s ireg = { s with PC := s.PC + k } := by
  unfold move_PC
  rw [if_pos h, hk]

theorem move_PC_id (s : CPUState) (ireg : Int)
    (h : pyShr (pyShl ireg 3 % 255) 7 = 1) : move_PC s ireg = s := by
  unfold move_PC
  rw [if_neg (not_not_intro h)]

/-- Every branch of the ALU leaves `PC` unchanged. -/
theorem ALU_preserves_PC {s : CPUState} {op ra rb : Int} {s2 : CPUState}
    (h : ALU s op ra rb = .ok s2) : s2.PC = s.PC := by
  unfold ALU at h
  split_ifs at h <;>
    repeat' split at h
  all_goals try (cases h)
  all_goals rfl

theorem ldi_PC {s s2 : CPUState} (h : ldi s = .ok s2) : s2.PC = s.PC := by
  unfold ldi at h
  repeat' split at h
  all_goals try (cases h)
  all_goals rfl

theorem prn_PC {s s2 : CPUState} (h : prn s = .ok s2) : s2.PC = s.PC := by
  unfold prn at h
  repeat' split at h
  all_goals try (cases h)
  all_goals rfl

theorem push_PC {s s2 : CPUState} (h : push s = .ok s2) : s2.PC = s.PC := by
  unfold push at h
  repeat' split at h
  all_goals try (cases h)
  all_goals rfl

theorem pop_PC {s s2 : CPUState} (h : pop s = .ok s2) : s2.PC = s.PC := by
  unfold pop at h
  repeat' split at h
  all_goals try (cases h)
  all_goals rfl

/-- C1: for each of the fourteen executable opcodes, if the opcode's
"sets PC itself" bit (bit 4, i.e. `ireg / 16 % 2`) is clear, `move_PC`
advances `PC` by exactly (operand-count + 1) where the operand count is
the opcode's top two bits (`ireg / 64`) — and the instruction's handler
never touches `PC` itself, so this is the engine's whole advance; if
that bit is set, `move_PC` leaves the state untouched and only the
handler determines the new `PC`. (For these fourteen byte values the
source's `% 255` test agrees with the bit-4 reading.) -/
theorem C1_pc_advance (s : CPUState) (ireg : Int) (h : ireg ∈ opcodes) :
    (ireg / 16 % 2 = 0 →
      move_PC s ireg = { s with PC := s.PC + (ireg / 64 + 1) })
    ∧ (ireg / 16 % 2 = 1 → move_PC s ireg = s)
    ∧ (ireg / 16 % 2 = 0 → ∀ (name : String) (s2 : CPUState),
        binary_op ireg = some name → runInstruction s name = .ok s2 →
        s2.PC = s.PC)
    ∧ (ireg / 16 % 2 = 0 → ∀ (ra rb : Int) (s2 : CPUState),
        ALU s ireg ra rb = .ok s2 → s2.PC = s.PC) := by
  fin_cases h <;>
    refine ⟨fun hb => ?_, fun hb => ?_, fun hb name s2 hbo hrun => ?_,
      fun hb ra rb s2 h2 => ALU_preserves_PC h2⟩ <;>
    first
      | exact move_PC_adv _ _ _ (by decide) (by decide)
      | exact move_PC_id _ _ (by decide)
      | exact absurd hb (by decide)
      | exact Option.noConfusion hbo
      | (simp [binary_op] at hbo; subst hbo;
         first
           | cases hrun
           | exact ldi_PC hrun
           | exact prn_PC hrun
           | exact push_PC hrun
           | exact pop_PC hrun)

/-- Witness for C1 at the LDI opcode `0b10000010`. -/
theorem C1_pc_advance_witness :
    move_PC initState 0b10000010 =
      { initState with PC := initState.PC + (0b10000010 / 64 + 1) } :=
  (C1_pc_advance initState 0b10000010 (by decide)).1 (by decide)

/-- Concrete state for the C2 counterexample: `reg[0] = reg[1] = 200`. -/
def sC2 : CPUState :=
  { ram := [], reg := [200, 200, 0, 0, 0, 0, 0, 244], PC := 0, FL := 0,
    operand_a := 0, operand_b := 1 }

/-- C2 counterexample: ADD on `reg[0] = reg[1] = 200` stores 400, not the
8-bit-wrapped 144, so a register does not always hold a value in 0..255
afterwards: the source's `self.reg[reg_a] += self.reg[reg_b]` never
truncates. -/
theorem C2_counterexample :
    ALU sC2 ADD 0 1 = .ok { sC2 with reg := [400, 200, 0, 0, 0, 0, 0, 244] }
    ∧ ¬ (400 : Int) ≤ 255 ∧ ((200 : Int) + 200) % 256 = 144 :=
  ⟨rfl, by decide, by decide⟩

/-- C2 amended: ADD, SUB and MUL store into `reg[A]` the exact integer
sum, difference and product of the two register values, with no 8-bit
wrap or truncation, so the result may leave the range 0..255. -/
theorem C2_alu_exact (s : CPUState) (ra rb va vb : Int)
    (reg1 reg2 reg3 : List Int)
    (ha : pyGet s.reg ra = some va) (hb : pyGet s.reg rb = some vb)
    (h1 : pySet s.reg ra (va + vb) = some reg1)
    (h2 : pySet s.reg ra (va - vb) = some reg2)
    (h3 : pySet s.reg ra (va * vb) = some reg3) :
    ALU s ADD ra rb = .ok { s with reg := reg1 }
    ∧ ALU s SUB ra rb = .ok { s with reg := reg2 }
    ∧ ALU s MUL ra rb = .ok { s with reg := reg3 } := by
  refine ⟨?_, ?_, ?_⟩ <;>
    simp [ALU, ADD, SUB, MUL, CMP, getE, setE, ha, hb, h1, h2, h3]

/-- Witness for C2's amended theorem on `reg[0] = reg[1] = 200`. -/
theorem C2_alu_exact_witness :
    ALU sC2 ADD 0 1 = .ok { sC2 with reg := [400, 200, 0, 0, 0, 0, 0, 244] } :=
  (C2_alu_exact sC2 0 1 200 200
    [400, 200, 0, 0, 0, 0, 0, 244]
    [0, 200, 0, 0, 0, 0, 0, 244]
    [40000, 200, 0, 0, 0, 0, 0, 244]
    rfl rfl rfl rfl rfl).1

/-- The CMP branch of `CPU.ALU`, fully evaluated: it reads the latched
`operand_a`/`operand_b` registers and overwrites `FL` with exactly one of
1 (equal), 4 (less) or 2 (greater). -/
theorem ALU_cmp_eq (s : CPUState) (ra rb va vb : Int)
    (ha : pyGet s.reg s.operand_a = some va)
    (hb : pyGet s.reg s.operand_b = some vb) :
    ALU s CMP ra rb =
      .ok { s with FL := if va = vb then 1 else if va < vb then 4 else 2 } := by
  have h1 : (CMP = ADD) = False := by simp [CMP, ADD]
  have h2 : (CMP = SUB) = False := by simp [CMP, SUB]
  have h3 : (CMP = MUL) = False := by simp [CMP, MUL]
  simp only [ALU, h1, h2, h3, if_false, if_pos rfl, getE, ha, hb]
  rcases lt_trichotomy va vb with h | rfl | h
  · simp [h, not_lt.mpr h.le, ne_of_lt h]
  · simp [lt_irrefl]
  · simp [h, not_lt.mpr h.le, (ne_of_lt h).symm, lt_asymm h]

/-- C4: executing CMP overwrites the flags register with exactly one of
the three values 1 (Equal, bit 0), 4 (Less-than, bit 2) or 2
(Greater-than, bit 1) according to the comparison of the two latched
operand registers; the result does not depend on the previous flags
value, and no other component of the state changes. -/
theorem C4_cmp_flags (s : CPUState) (ra rb va vb : Int)
    (ha : pyGet s.reg s.operand_a = some va)
    (hb : pyGet s.reg s.operand_b = some vb) :
    ALU s CMP ra rb =
      .ok { s with FL := if va = vb then 1 else if va < vb then 4 else 2 }
    ∧ ∀ s2, ALU s CMP ra rb = .ok s2 →
        s2.FL = 1 ∨ s2.FL = 2 ∨ s2.FL = 4 := by
  have key := ALU_cmp_eq s ra rb va vb ha hb
  refine ⟨key, fun s2 h2 => ?_⟩
  rw [key] at h2
  injection h2 with h3
  rw [← h3]
  rcases lt_trichotomy va vb with h | rfl | h
  · simp [h, ne_of_lt h]
  · simp
  · simp [h, (ne_of_lt h).symm, lt_asymm h]

/-- Witness for C4: comparing `reg[0] = 3` with `reg[1] = 5` sets `FL = 4`. -/
theorem C4_cmp_flags_witness :
    ALU { ram := [], reg := [3, 5, 0, 0, 0, 0, 0, 244], PC := 0, FL := 7,
          operand_a := 0, operand_b := 1 : CPUState } CMP 0 1 =
      .ok { ram := [], reg := [3, 5, 0, 0, 0, 0, 0, 244], PC := 0, FL := 4,
            operand_a := 0, operand_b := 1 } := by
  have h := (C4_cmp_flags
    { ram := [], reg := [3, 5, 0, 0, 0, 0, 0, 244], PC := 0, FL := 7,
      operand_a := 0, operand_b := 1 } 0 1 3 5 rfl rfl).1
  simpa using h

/-- C5: the CMP branch of the ALU ignores the `reg_a`/`reg_b` arguments
passed by the dispatcher: its entire result is the same for any pair of
arguments, and it compares `reg[operand_a]` against `reg[operand_b]`,
the operand fields latched by the most recent fetch. -/
theorem C5_cmp_latched (s : CPUState) (ra rb ra2 rb2 va vb : Int)
    (ha : pyGet s.reg s.operand_a = some va)
    (hb : pyGet s.reg s.operand_b = some vb) :
    ALU s CMP ra rb = ALU s CMP ra2 rb2
    ∧ ALU s CMP ra rb =
        .ok { s with FL := if va = vb then 1 else if va < vb then 4 else 2 } := by
  constructor
  · rw [ALU_cmp_eq s ra rb va vb ha hb, ALU_cmp_eq s ra2 rb2 va vb ha hb]
  · exact ALU_cmp_eq s ra rb va vb ha hb

/-- Witness for C5: with latched operands 0 and 1, CMP called with
arguments (5, 5) equals CMP called with arguments (0, 1). -/
theorem C5_cmp_latched_witness :
    ALU { ram := [], reg := [3, 5, 0, 0, 0, 0, 0, 244], PC := 0, FL := 0,
          operand_a := 0, operand_b := 1 : CPUState } CMP 5 5 =
      ALU { ram := [], reg := [3, 5, 0, 0, 0, 0, 0, 244], PC := 0, FL := 0,
            operand_a := 0, operand_b := 1 } CMP 0 1 :=
  (C5_cmp_latched
    { ram := [], reg := [3, 5, 0, 0, 0, 0, 0, 244], PC := 0, FL := 0,
      operand_a := 0, operand_b := 1 } 5 5 0 1 3 5 rfl rfl).1

/-- C6: with the Equal bit of `FL` set (`FL & 1 = 1`, modelled as
`FL % 2 = 1`), JEQ loads `PC` with the operand register's value, and with
it clear advances `PC` by exactly 2; JNE does the opposite. -/
theorem C6_jeq_jne (s : CPUState) (addr : Int)
    (h : pyGet s.reg s.operand_a = some addr) :
    (s.FL % 2 = 1 → jeq s = .ok { s with PC := addr })
    ∧ (s.FL % 2 = 0 → jeq s = .ok { s with PC := s.PC + 2 })
    ∧ (s.FL % 2 = 0 → jne s = .ok { s with PC := addr })
    ∧ (s.FL % 2 = 1 → jne s = .ok { s with PC := s.PC + 2 }) := by
  refine ⟨fun hf => ?_, fun hf => ?_, fun hf => ?_, fun hf => ?_⟩ <;>
    simp [jeq, jne, getE, h, hf]

/-- Whether the first character list is a prefix of the second. -/
def isPrefixChars : List Char → List Char → Bool
  | [], _ => true
  | _ :: _, [] => false
  | c :: p, d :: s => c = d && isPrefixChars p s

/-- Whether `pat` occurs as a contiguous substring of the second list;
used to state that a diagnostic does or does not mention a value. -/
def containsSub (pat : List Char) : List Char → Bool
  | [] => isPrefixChars pat []
  | d :: rest => isPrefixChars pat (d :: rest) || containsSub pat rest

/-- The classify test `(ireg << 2) % 255 >> 7` of `CPU.run` only ever
takes the values 0 or 1, for every integer `ireg`: the value after
`% 255` is in `[0, 255)` and `>> 7` divides it by 128. Consequently the
source's "Space dog did not understand" diagnostic branch is
unreachable. -/
theorem classify_bit_cases (ireg : Int) :
    pyShr (pyShl ireg 2 % 255) 7 = 0 ∨ pyShr (pyShl ireg 2 % 255) 7 = 1 := by
  have h0 : (0 : Int) ≤ pyShl ireg 2 % 255 := Int.emod_nonneg _ (by decide)
  have h1 : pyShl ireg 2 % 255 < 255 := Int.emod_lt_of_pos _ (by decide)
  unfold pyShr
  rw [Int.fdiv_eq_ediv _ (by decide)]
  omega

/-- Concrete state for the C3 counterexample: the fetched opcode is
`0b10100011` (163), absent from both tables but classified as ALU. -/
def sC3 : CPUState :=
  { ram := [163, 0, 0], reg := [0, 0, 0, 0, 0, 0, 0, 244], PC := 0, FL := 0,
    operand_a := 0, operand_b := 0 }

/-- C3 counterexample: fetching opcode 163 — in neither table, but with
the run loop's ALU bit set — terminates through the uncaught
`Exception("Unsupported ALU operation")`, whose diagnostic text does not
contain the offending opcode value 163 even though the exit status is
non-zero, so the claim "after emitting a diagnostic that includes the
offending opcode value" fails. -/
theorem C3_counterexample :
    step sC3 = .error (.exception "Unsupported ALU operation")
    ∧ excMessage (.exception "Unsupported ALU operation") =
        "Unsupported ALU operation"
    ∧ containsSub "163".toList "Unsupported ALU operation".toList = false
    ∧ exitCode (.exception "Unsupported ALU operation") ≠ 0 :=
  ⟨rfl, rfl, by decide, by decide⟩

/-- C3 amended: every fetched opcode byte absent from both tables makes
`step` terminate with an error of non-zero exit status — but through an
uncaught exception rather than the (unreachable) diagnostic branch:
when the classify bit is 1 the error is the fixed
`Exception("Unsupported ALU operation")`, whose message does not name
the opcode, and when it is 0 the error is a `KeyError` carrying the
offending opcode value. -/
theorem C3_unknown_opcode (s : CPUState) (ireg opa opb : Int)
    (hf0 : pyGet s.ram s.PC = some ireg)
    (hf1 : pyGet s.ram (s.PC + 1) = some opa)
    (hf2 : pyGet s.ram (s.PC + 2) = some opb)
    (hmath : ireg ≠ ADD ∧ ireg ≠ SUB ∧ ireg ≠ MUL ∧ ireg ≠ CMP)
    (hbin : binary_op ireg = none) :
    ∃ e, step s = .error e ∧ exitCode e ≠ 0
      ∧ (pyShr (pyShl ireg 2 % 255) 7 = 1 →
          e = .exception "Unsupported ALU operation")
      ∧ (pyShr (pyShl ireg 2 % 255) 7 = 0 → e = .keyError ireg) := by
  rcases classify_bit_cases ireg with hc | hc
  · refine ⟨.keyError ireg, ?_, by simp [exitCode], fun h1 => ?_, fun _ => rfl⟩
    · simp [step, getE, hf0, hf1, hf2, hc, hbin]
    · omega
  · refine ⟨.exception "Unsupported ALU operation", ?_, by simp [exitCode],
      fun _ => rfl, fun h0 => ?_⟩
    · simp [step, getE, hf0, hf1, hf2, hc, ALU, hmath.1, hmath.2.1,
        hmath.2.2.1, hmath.2.2.2]
    · omega

/-- Witness for C3's amended theorem at opcode 163. -/
theorem C3_unknown_opcode_witness :
    ∃ e, step sC3 = .error e ∧ exitCode e ≠ 0
      ∧ (pyShr (pyShl 163 2 % 255) 7 = 1 →
          e = .exception "Unsupported ALU operation")
      ∧ (pyShr (pyShl 163 2 % 255) 7 = 0 → e = .keyError 163) :=
  C3_unknown_opcode sC3 163 0 0 rfl rfl rfl (by decide) (by decide)

/-- C7: CALL decrements SP, stores `PC + 2` at the decremented SP, and
loads PC from the operand register; from any later state `t` in which
the stack is balanced — SP again holds the post-CALL value and the
return-address cell still holds `PC + 2` — RET restores PC to `PC + 2`
and returns SP to its pre-CALL value. -/
theorem C7_call_ret (s : CPUState) (sp target : Int) (reg1 ram1 : List Int)
    (hsp : pyGet s.reg 7 = some sp)
    (hreg1 : pySet s.reg 7 (sp - 1) = some reg1)
    (hram1 : pySet s.ram (sp - 1) (s.PC + 2) = some ram1)
    (htarget : pyGet reg1 s.operand_a = some target) :
    call s = .ok { s with reg := reg1, ram := ram1, PC := target }
    ∧ pyGet reg1 7 = some (sp - 1)
    ∧ pyGet ram1 (sp - 1) = some (s.PC + 2)
    ∧ ∀ (t : CPUState) (reg2 : List Int),
        pyGet t.reg 7 = some (sp - 1) →
        pyGet t.ram (sp - 1) = some (s.PC + 2) →
        pySet t.reg 7 (sp - 1 + 1) = some reg2 →
        ret t = .ok { t with PC := s.PC + 2, reg := reg2 }
        ∧ pyGet reg2 7 = some sp := by
  refine ⟨?_, pyGet_pySet_self hreg1, pyGet_pySet_self hram1, ?_⟩
  · simp [call, getE, setE, hsp, hreg1, hram1, htarget]
  · intro t reg2 h1 h2 h3
    have h5 : sp - 1 + 1 = sp := by omega
    rw [h5] at h3
    refine ⟨?_, ?_⟩
    · simp [ret, getE, setE, h1, h2, h3]
    · exact pyGet_pySet_self h3

/-- Concrete state for the C7 witness: `reg[0] = 5` (the CALL target),
SP = `reg[7]` = 4, an 8-cell ram. -/
def sC7 : CPUState :=
  { ram := [7, 7, 7, 7, 7, 7, 7, 7], reg := [5, 0, 0, 0, 0, 0, 0, 4],
    PC := 0, FL := 0, operand_a := 0, operand_b := 0 }

/-- The state reached from `sC7` by executing CALL. -/
def sC7post : CPUState :=
  { sC7 with reg := [5, 0, 0, 0, 0, 0, 0, 3],
             ram := [7, 7, 7, 2, 7, 7, 7, 7], PC := 5 }

/-- Witness for C7: CALL from `sC7` then an immediate RET restores
`PC = 2` and `SP = 4`. -/
theorem C7_call_ret_witness :
    call sC7 = .ok sC7post
    ∧ ret sC7post =
        .ok { sC7post with reg := [5, 0, 0, 0, 0, 0, 0, 4], PC := 2 } := by
  have h := C7_call_ret sC7 4 5 [5, 0, 0, 0, 0, 0, 0, 3]
    [7, 7, 7, 2, 7, 7, 7, 7] rfl rfl rfl rfl
  have h2 := (h.2.2.2 sC7post [5, 0, 0, 0, 0, 0, 0, 4] rfl rfl rfl).1
  exact ⟨h.1, h2⟩

theorem getE_ok {l : List Int} {i v : Int} (h : getE l i = .ok v) :
    pyGet l i = some v := by
  unfold getE at h
  cases hg : pyGet l i with
  | none => rw [hg] at h; cases h
  | some w => rw [hg] at h; injection h with h2; rw [h2]

theorem setE_ok {l : List Int} {i v : Int} {l2 : List Int}
    (h : setE l i v = .ok l2) : pySet l i v = some l2 := by
  unfold setE at h
  cases hg : pySet l i v with
  | none => rw [hg] at h; cases h
  | some m => rw [hg] at h; injection h with h2; rw [h2]

theorem pyIdx_spec {n : Nat} {i : Int} {j : Nat} (h : pyIdx n i = some j) :
    (0 ≤ i ∧ i < (n : Int) ∧ (j : Int) = i)
    ∨ (i < 0 ∧ -(n : Int) ≤ i ∧ (j : Int) = i + n) := by
  unfold pyIdx at h
  by_cases h1 : 0 ≤ i ∧ i < (n : Int)
  · rw [if_pos h1] at h
    injection h with h2
    left
    refine ⟨h1.1, h1.2, ?_⟩
    rw [← h2]
    exact Int.toNat_of_nonneg h1.1
  · rw [if_neg h1] at h
    by_cases h2 : -(n : Int) ≤ i ∧ i < 0
    · rw [if_pos h2] at h
      injection h with h3
      right
      refine ⟨h2.2, h2.1, ?_⟩
      rw [← h3]
      exact Int.toNat_of_nonneg (by omega)
    · rw [if_neg h2] at h
      cases h

theorem pyIdx_total {n : Nat} {i : Int} (h1 : -(n : Int) ≤ i)
    (h2 : i < (n : Int)) : ∃ j, pyIdx n i = some j := by
  unfold pyIdx
  by_cases h0 : 0 ≤ i
  · exact ⟨i.toNat, by rw [if_pos ⟨h0, h2⟩]⟩
  · refine ⟨(i + n).toNat, ?_⟩
    rw [if_neg (fun hc => h0 hc.1), if_pos ⟨h1, by omega⟩]

theorem pyIdx_seven {n : Nat} {j : Nat} (h : pyIdx n 7 = some j) :
    j = 7 ∧ 7 < n := by
  rcases pyIdx_spec h with ⟨_, h2, h3⟩ | ⟨h1, _, _⟩
  · constructor <;> omega
  · omega

theorem pySet_eq_of_pyIdx {l : List Int} {i : Int} {j : Nat}
    (h : pyIdx l.length i = some j) (v : Int) :
    pySet l i v = some (l.set j v) := by
  unfold pySet
  rw [h]

theorem pyGet_eq_of_pyIdx {l : List Int} {i : Int} {j : Nat}
    (h : pyIdx l.length i = some j) : pyGet l i = l.get? j := by
  unfold pyGet
  rw [h]

/-- C8: whenever PUSH on the latched operand register succeeds and POP
(on the same still-latched operand register) then succeeds, the operand
register holds its pre-PUSH value again and SP is back to its pre-PUSH
value — including the degenerate cases where the operand register is
(or resolves to) register 7 itself. -/
theorem C8_push_pop (s s1 s2 : CPUState)
    (hpush : push s = .ok s1) (hpop : pop s1 = .ok s2) :
    pyGet s2.reg s.operand_a = pyGet s.reg s.operand_a
    ∧ pyGet s2.reg 7 = pyGet s.reg 7 := by
  unfold push at hpush
  split at hpush
  · cases hpush
  next sp heq =>
    split at hpush
    · cases hpush
    next reg1 heq2 =>
      split at hpush
      · cases hpush
      next value heq3 =>
        split at hpush
        · cases hpush
        next ram1 heq4 =>
          injection hpush with hs1
          have hsp := getE_ok heq
          have hreg1 := setE_ok heq2
          have hval := getE_ok heq3
          have hram1 := setE_ok heq4
          subst hs1
          unfold pop at hpop
          split at hpop
          · cases hpop
          next spA heqA =>
            split at hpop
            · cases hpop
            next valB heqB =>
              split at hpop
              · cases hpop
              next regC heqC =>
                split at hpop
                · cases hpop
                next spD heqD =>
                  split at hpop
                  · cases hpop
                  next regE heqE =>
                    injection hpop with hs2
                    have hA := getE_ok heqA
                    have hB := getE_ok heqB
                    have hC := setE_ok heqC
                    have hD := getE_ok heqD
                    have hE := setE_ok heqE
                    clear heq heq2 heq3 heq4 heqA heqB heqC heqD heqE
                    dsimp only at hA hB hC hD hE hs2
                    -- name the register-file length and resolve index 7
                    rcases pyGet_some_iff.mp hsp with ⟨j7, hj7, hget7⟩
                    obtain ⟨rfl, hlen7⟩ := pyIdx_seven hj7
                    -- reg1 = s.reg.set 7 (sp - 1)
                    rcases pySet_some_iff.mp hreg1 with ⟨j7b, hj7b, hreg1eq⟩
                    obtain ⟨rfl, -⟩ := pyIdx_seven hj7b
                    subst hreg1eq
                    -- resolve the operand index on reg1 (same length)
                    rcases pyGet_some_iff.mp hval with ⟨ja, hja, hgetja⟩
                    rw [List.length_set] at hja
                    -- pop reads SP = sp - 1
                    have hlen1 : ((s.reg.set 7 (sp - 1)).length) = s.reg.length :=
                      List.length_set _ _ _
                    have hgetA : pyGet (s.reg.set 7 (sp - 1)) 7 = some (sp - 1) := by
                      rw [pyGet_eq_of_pyIdx (by rw [hlen1]; exact hj7)]
                      exact get?_set_self _ _ _ (by omega)
                    rw [hA] at hgetA
                    injection hgetA with hspA
                    -- pop reads back the pushed value
                    have hgetB := pyGet_pySet_self hram1
                    rw [← hspA] at hgetB
                    rw [hB] at hgetB
                    injection hgetB with hvalB
                    -- regC = reg1.set ja valB
                    rcases pySet_some_iff.mp hC with ⟨jc, hjc, hregCeq⟩
                    rw [hlen1, hja] at hjc
                    injection hjc with hjc2
                    subst hjc2
                    subst hregCeq
                    -- regC still has sp - 1 at index 7 (valB = sp - 1 if ja = 7)
                    have hlenC :
                        (((s.reg.set 7 (sp - 1)).set ja valB).length) =
                          s.reg.length := by
                      rw [List.length_set, List.length_set]
                    have hlt1 : 7 < (s.reg.set 7 (sp - 1)).length := by
                      rw [hlen1]
                      exact hlen7
                    have hgetC7 :
                        ((s.reg.set 7 (sp - 1)).set ja valB).get? 7 =
                          some (sp - 1) := by
                      by_cases hja7 : ja = 7
                      · subst hja7
                        rw [get?_set_self (s.reg.set 7 (sp - 1)) 7 valB hlt1]
                        rw [get?_set_self s.reg 7 (sp - 1) hlen7] at hgetja
                        injection hgetja with hv
                        rw [hvalB, ← hv]
                      · rw [get?_set_other (s.reg.set 7 (sp - 1)) ja 7 valB hja7]
                        exact get?_set_self s.reg 7 (sp - 1) hlen7
                    have hgetD : pyGet ((s.reg.set 7 (sp - 1)).set ja valB) 7 =
                        some (sp - 1) := by
                      have hidx : pyIdx ((s.reg.set 7 (sp - 1)).set ja valB).length 7
                          = some 7 := by
                        rw [hlenC]
                        exact hj7
                      rw [pyGet_eq_of_pyIdx hidx]
                      exact hgetC7
                    rw [hD] at hgetD
                    injection hgetD with hspD
                    -- regE = regC.set 7 (spD + 1) with spD + 1 = sp
                    rcases pySet_some_iff.mp hE with ⟨je, hje, hregEeq⟩
                    rw [hlenC] at hje
                    rw [hj7] at hje
                    injection hje with hje2
                    subst hje2
                    subst hregEeq
                    subst hs2
                    dsimp only
                    have hsd : spD + 1 = sp := by omega
                    rw [hsd]
                    -- both conclusions, by computing the final reads
                    have hlenE :
                        ((((s.reg.set 7 (sp - 1)).set ja valB).set 7 sp).length)
                          = s.reg.length := by
                      rw [List.length_set, List.length_set, List.length_set]
                    have hjaE : pyIdx
                        (((s.reg.set 7 (sp - 1)).set ja valB).set 7 sp).length
                        s.operand_a = some ja := by
                      rw [hlenE]
                      exact hja
                    have hj7E : pyIdx
                        (((s.reg.set 7 (sp - 1)).set ja valB).set 7 sp).length
                        (7 : Int) = some 7 := by
                      rw [hlenE]
                      exact hj7
                    have hltC : 7 < ((s.reg.set 7 (sp - 1)).set ja valB).length := by
                      rw [hlenC]
                      exact hlen7
                    constructor
                    · rw [pyGet_eq_of_pyIdx hjaE, pyGet_eq_of_pyIdx hja]
                      by_cases hja7 : ja = 7
                      · subst hja7
                        rw [get?_set_self ((s.reg.set 7 (sp - 1)).set 7 valB)
                          7 sp hltC, hget7]
                      · have h7ja : (7 : Nat) ≠ ja := fun hc => hja7 hc.symm
                        have hltja : ja < (s.reg.set 7 (sp - 1)).length := by
                          rw [hlen1]
                          exact pyIdx_some_lt hja
                        rw [get?_set_other ((s.reg.set 7 (sp - 1)).set ja valB)
                            7 ja sp h7ja,
                          get?_set_self (s.reg.set 7 (sp - 1)) ja valB hltja]
                        rw [get?_set_other s.reg 7 ja (sp - 1) h7ja] at hgetja
                        rw [hvalB, hgetja]
                    · rw [pyGet_eq_of_pyIdx hj7E, pyGet_eq_of_pyIdx hj7,
                        get?_set_self ((s.reg.set 7 (sp - 1)).set ja valB)
                          7 sp hltC, hget7]

/-- Witness for C8: PUSH then POP on register 0 of a concrete state
restores `reg[0] = 42` and `SP = 4`. -/
theorem C8_push_pop_witness :
    pyGet ([42, 0, 0, 0, 0, 0, 0, 4] : List Int) 0 = some 42
    ∧ pyGet ([42, 0, 0, 0, 0, 0, 0, 4] : List Int) 7 = some 4 := by
  have h := C8_push_pop
    { ram := [7, 7, 7, 7, 7, 7, 7, 7], reg := [42, 0, 0, 0, 0, 0, 0, 4],
      PC := 0, FL := 0, operand_a := 0, operand_b := 0 }
    { ram := [7, 7, 7, 42, 7, 7, 7, 7], reg := [42, 0, 0, 0, 0, 0, 0, 3],
      PC := 0, FL := 0, operand_a := 0, operand_b := 0 }
    { ram := [7, 7, 7, 42, 7, 7, 7, 7], reg := [42, 0, 0, 0, 0, 0, 0, 4],
      PC := 0, FL := 0, operand_a := 0, operand_b := 0 }
    rfl rfl
  exact h

/-- If some retained line of the image fails to parse as a base-2
numeral, the load loop ends in an exit-status-1 error — the uncaught
`ValueError` (or an `IndexError` if an earlier line already overran
ram) — and never returns a loaded image. -/
theorem loadLines_err_of_bad :
    ∀ (lines : List String) (ram : List Int) (a : Nat),
      (∃ line ∈ lines, ∃ tok, parseLine line = some tok ∧ int2 tok = none) →
      ∃ msg, loadLines lines ram a = .err 1 msg := by
  intro lines
  induction lines with
  | nil =>
    intro ram a h
    rcases h with ⟨l, hl, _⟩
    cases hl
  | cons line rest ih =>
    intro ram a h
    rcases h with ⟨l, hl, tok, hp, hbad⟩
    rcases List.mem_cons.mp hl with rfl | hmem
    · cases hph : parseLine l with
      | none =>
        rw [hph] at hp
        cases hp
      | some t =>
        rw [hph] at hp
        injection hp with ht
        subst ht
        exact ⟨"ValueError: invalid literal for int() with base 2: " ++ t,
          by simp [loadLines, hph, hbad]⟩
    · cases hph : parseLine line with
      | none =>
        rcases ih ram a ⟨l, hmem, tok, hp, hbad⟩ with ⟨msg, hm⟩
        exact ⟨msg, by simp [loadLines, hph, hm]⟩
      | some t =>
        cases hit : int2 t with
        | none =>
          exact ⟨"ValueError: invalid literal for int() with base 2: " ++ t,
            by simp [loadLines, hph, hit]⟩
        | some num =>
          cases hps : pySet ram (a : Int) num with
          | none =>
            exact ⟨"IndexError: list assignment index out of range",
              by simp [loadLines, hph, hit, hps]⟩
          | some ram2 =>
            rcases ih ram2 (a + 1) ⟨l, hmem, tok, hp, hbad⟩ with ⟨msg, hm⟩
            exact ⟨msg, by simp [loadLines, hph, hit, hps, hm]⟩

/-- C9: loading fails fatally before any instruction executes — a
missing file-path argument prints the usage error and exits 1, a
nonexistent file prints "File not found" and exits 2, and an image with
a retained line that is not a valid binary numeral aborts with exit
status 1 (the uncaught ValueError); in every one of these cases the
entry point never starts execution. -/
theorem C9_load_errors (prog path : String) (file : Option (List String))
    (lines : List String)
    (hbad : ∃ line ∈ lines, ∃ tok, parseLine line = some tok ∧ int2 tok = none) :
    load [prog] file = .err 1 "ERROR: Must have file name"
    ∧ mainStarts [prog] file = false
    ∧ load [prog, path] none = .err 2 "File not found"
    ∧ mainStarts [prog, path] none = false
    ∧ (∃ msg, load [prog, path] (some lines) = .err 1 msg)
    ∧ mainStarts [prog, path] (some lines) = false := by
  have h1 : load [prog] file = .err 1 "ERROR: Must have file name" := by
    simp [load]
  have h3 : load [prog, path] none = .err 2 "File not found" := by
    simp [load]
  rcases loadLines_err_of_bad lines (List.replicate 256 0) 0 hbad with ⟨msg, hm⟩
  have h5 : load [prog, path] (some lines) = .err 1 msg := by
    unfold load
    rw [if_neg (by simp)]
    exact hm
  refine ⟨h1, ?_, h3, ?_, ⟨msg, h5⟩, ?_⟩ <;>
    simp [mainStarts, h1, h3, h5]

/-- Witness for C9 at a one-line image whose line "abc" is malformed. -/
theorem C9_load_errors_witness :
    load ["ls8.py", "prog.ls8"] none = .err 2 "File not found" :=
  (C9_load_errors "ls8.py" "prog.ls8" none ["abc"]
    ⟨"abc", by simp, "abc", by decide, rfl⟩).2.2.1

/-- Concrete state for the C10 counterexample: SP = `reg[7]` = -256,
which lies inside the range -256..255 that the claim asserts safe. -/
def sC10 : CPUState :=
  { ram := List.replicate 256 0, reg := [0, 0, 0, 0, 0, 0, 0, -256],
    PC := 0, FL := 0, operand_a := 0, operand_b := 0 }

set_option maxRecDepth 10000 in
/-- C10 counterexample: with SP = -256 (inside the claimed safe range
-256..255) and a valid operand register, PUSH decrements SP to -257 and
the write `ram[-257]` raises IndexError, so PUSH is not error-free on
all of -256..255. -/
theorem C10_counterexample :
    (-256 : Int) ≤ -256 ∧ (-256 : Int) ≤ 255
    ∧ pyGet sC10.reg 7 = some (-256)
    ∧ push sC10 = .error .indexError :=
  ⟨by decide, by decide, rfl, rfl⟩

/-- C10 amended: stack accesses index ram with the raw SP value, and
Python's negative indices wrap from the end of the 256-cell array: with
SP = 0, PUSH (and CALL) set SP to -1 and store at cell 255. No
out-of-bounds error is raised by PUSH or CALL for SP in -255..255, nor
by POP or RET for SP in -256..255; PUSH and CALL at SP = -256 do raise
IndexError, since the decremented pointer -257 is out of range. -/
theorem C10_stack_wrap (s : CPUState) (sp : Int) (ja : Nat)
    (hram : s.ram.length = 256) (hreg : s.reg.length = 8)
    (hsp : pyGet s.reg 7 = some sp)
    (hja : pyIdx 8 s.operand_a = some ja) :
    (sp = 0 → ∃ reg1 v, pySet s.reg 7 (-1) = some reg1
        ∧ pyGet reg1 s.operand_a = some v
        ∧ push s = .ok { s with reg := reg1, ram := s.ram.set 255 v }
        ∧ pyGet reg1 7 = some (-1))
    ∧ (sp = 0 → ∃ reg1 target, pySet s.reg 7 (-1) = some reg1
        ∧ pyGet reg1 s.operand_a = some target
        ∧ call s = .ok { s with PC := target, reg := reg1, ram := s.ram.set 255 (s.PC + 2) })
    ∧ (-255 ≤ sp → sp ≤ 255 → ∃ s2, push s = .ok s2)
    ∧ (-255 ≤ sp → sp ≤ 255 → ∃ s2, call s = .ok s2)
    ∧ (-256 ≤ sp → sp ≤ 255 → ∃ s2, pop s = .ok s2)
    ∧ (-256 ≤ sp → sp ≤ 255 → ∃ s2, ret s = .ok s2) := by
  have hj7 : pyIdx s.reg.length 7 = some 7 := by
    rw [hreg]
    decide
  have hja8 : ja < 8 := pyIdx_some_lt hja
  have hset7 : ∀ x : Int, pySet s.reg 7 x = some (s.reg.set 7 x) :=
    fun x => pySet_eq_of_pyIdx hj7 x
  have hgetreg1 : ∀ x : Int,
      ∃ v, pyGet (s.reg.set 7 x) s.operand_a = some v := by
    intro x
    have hidx : pyIdx (s.reg.set 7 x).length s.operand_a = some ja := by
      rw [List.length_set, hreg]
      exact hja
    have hlt : ja < (s.reg.set 7 x).length := by
      rw [List.length_set, hreg]
      exact hja8
    exact ⟨_, by rw [pyGet_eq_of_pyIdx hidx]; exact List.get?_eq_get hlt⟩
  have hramidx : ∀ i : Int, -256 ≤ i → i < 256 →
      ∃ j, pyIdx s.ram.length i = some j := by
    intro i hi1 hi2
    rw [hram]
    exact pyIdx_total (by omega) (by omega)
  have hramget : ∀ i : Int, -256 ≤ i → i < 256 →
      ∃ v, pyGet s.ram i = some v := by
    intro i hi1 hi2
    rcases hramidx i hi1 hi2 with ⟨j, hj⟩
    have hjlt : j < s.ram.length := pyIdx_some_lt hj
    exact ⟨_, by rw [pyGet_eq_of_pyIdx hj]; exact List.get?_eq_get hjlt⟩
  have hidx255 : pyIdx s.ram.length (-1) = some 255 := by
    rw [hram]
    decide
  refine ⟨?_, ?_, ?_, ?_, ?_, ?_⟩
  · -- PUSH at SP = 0 stores at cell 255
    intro h0
    subst h0
    have h01 : (0 : Int) - 1 = -1 := by omega
    rcases hgetreg1 (-1) with ⟨v, hv⟩
    refine ⟨s.reg.set 7 (-1), v, hset7 (-1), hv, ?_,
      pyGet_pySet_self (hset7 (-1))⟩
    simp [push, getE, setE, hsp, h01, hset7 (-1), hv,
      pySet_eq_of_pyIdx hidx255 v]
  · -- CALL at SP = 0 stores the return address at cell 255
    intro h0
    subst h0
    have h01 : (0 : Int) - 1 = -1 := by omega
    rcases hgetreg1 (-1) with ⟨target, hv⟩
    refine ⟨s.reg.set 7 (-1), target, hset7 (-1), hv, ?_⟩
    simp [call, getE, setE, hsp, h01, hset7 (-1), hv,
      pySet_eq_of_pyIdx hidx255 (s.PC + 2)]
  · -- PUSH is total for SP in -255..255
    intro h1 h2
    rcases hramidx (sp - 1) (by omega) (by omega) with ⟨jr, hjr⟩
    rcases hgetreg1 (sp - 1) with ⟨v, hv⟩
    exact ⟨{ s with reg := s.reg.set 7 (sp - 1), ram := s.ram.set jr v },
      by simp [push, getE, setE, hsp, hset7 (sp - 1), hv,
        pySet_eq_of_pyIdx hjr v]⟩
  · -- CALL is total for SP in -255..255
    intro h1 h2
    rcases hramidx (sp - 1) (by omega) (by omega) with ⟨jr, hjr⟩
    rcases hgetreg1 (sp - 1) with ⟨target, hv⟩
    exact ⟨{ s with PC := target, reg := s.reg.set 7 (sp - 1), ram := s.ram.set jr (s.PC + 2) },
      by simp [call, getE, setE, hsp, hset7 (sp - 1), hv,
        pySet_eq_of_pyIdx hjr (s.PC + 2)]⟩
  · -- POP is total for SP in -256..255
    intro h1 h2
    rcases hramget sp (by omega) (by omega) with ⟨v, hv⟩
    have hidxa : pyIdx s.reg.length s.operand_a = some ja := by
      rw [hreg]
      exact hja
    have hsetja := pySet_eq_of_pyIdx hidxa v
    have hlen2 : (s.reg.set ja v).length = s.reg.length :=
      List.length_set _ _ _
    have hidx7b : pyIdx (s.reg.set ja v).length 7 = some 7 := by
      rw [hlen2]
      exact hj7
    have hlt7b : (7 : Nat) < (s.reg.set ja v).length := by
      rw [hlen2, hreg]
      omega
    have hget7b : ∃ w, pyGet (s.reg.set ja v) 7 = some w :=
      ⟨_, by rw [pyGet_eq_of_pyIdx hidx7b]; exact List.get?_eq_get hlt7b⟩
    rcases hget7b with ⟨w, hw⟩
    exact ⟨{ s with reg := (s.reg.set ja v).set 7 (w + 1) },
      by simp [pop, getE, setE, hsp, hv, hsetja, hw,
        pySet_eq_of_pyIdx hidx7b (w + 1)]⟩
  · -- RET is total for SP in -256..255
    intro h1 h2
    rcases hramget sp (by omega) (by omega) with ⟨v, hv⟩
    exact ⟨{ s with PC := v, reg := s.reg.set 7 (sp + 1) },
      by simp [ret, getE, setE, hsp, hv, hset7 (sp + 1)]⟩

/-- Concrete state for the C10 witness: SP = 0, `reg[0] = 3`. -/
def sC10w : CPUState :=
  { ram := List.replicate 256 0, reg := [3, 0, 0, 0, 0, 0, 0, 0],
    PC := 0, FL := 0, operand_a := 0, operand_b := 0 }

/-- Witness for C10's amended theorem: PUSH succeeds at SP = 0. -/
theorem C10_stack_wrap_witness :
    ∃ s2, push sC10w = .ok s2 :=
  (C10_stack_wrap sC10w 0 0 (List.length_replicate 256 0) rfl rfl rfl).2.2.1
    (by decide) (by decide)

/-- Witness for C6: a taken JEQ with `FL = 1` jumps to `reg[0] = 9`. -/
theorem C6_jeq_jne_witness :
    jeq { ram := [], reg := [9, 0, 0, 0, 0, 0, 0, 244], PC := 0, FL := 1,
          operand_a := 0, operand_b := 0 : CPUState } =
      .ok { ram := [], reg := [9, 0, 0, 0, 0, 0, 0, 244], PC := 9, FL := 1,
            operand_a := 0, operand_b := 0 } :=
  (C6_jeq_jne
    { ram := [], reg := [9, 0, 0, 0, 0, 0, 0, 244], PC := 0, FL := 1,
      operand_a := 0, operand_b := 0 } 9 rfl).1 rfl

end LS8
